import Mathlib

/-!
Verification development for the Strategic System Dynamics Platform.

The repository ships the React frontend (`frontend/src/api/client.ts`,
`frontend/src/components/SimulationChart.tsx`, pages) together with the
project README describing the deterministic simulation core.  The Python
backend engine itself is not part of the shipped sources, so the engine is
modelled from the specification (see the `Engine` namespace); the frontend
boundary types and functions are embedded directly from the TypeScript
sources (see the `Client` namespace).

Numbers exchanged at the boundary are embedded as rationals `ℚ`.
-/

set_option autoImplicit false

namespace SysDyn

/-- JavaScript object property read on a string-keyed record
(`obj[k]`): the first binding of the key wins, a missing key reads as
`undefined` (`none`). -/
def jsGet {α : Type} (k : String) : List (String × α) → Option α
  | [] => none
  | (k', v) :: rest => if k' = k then some v else jsGet k rest

/-- JavaScript object property write (`obj[k] = v`): an existing key is
updated in place, a fresh key is appended (JS insertion order). -/
def jsSet {α : Type} (k : String) (v : α) : List (String × α) → List (String × α)
  | [] => [(k, v)]
  | (k', v') :: rest => if k' = k then (k, v) :: rest else (k', v') :: jsSet k v rest

theorem jsGet_jsSet_self {α : Type} (k : String) (v : α) (l : List (String × α)) :
    jsGet k (jsSet k v l) = some v := by
  induction l with
  | nil => simp [jsGet, jsSet]
  | cons p rest ih =>
    by_cases h : p.1 = k
    · simp [jsGet, jsSet, h]
    · simp [jsGet, jsSet, h, ih]

theorem jsGet_jsSet_ne {α : Type} (k k' : String) (v : α) (l : List (String × α))
    (hne : k' ≠ k) : jsGet k' (jsSet k v l) = jsGet k' l := by
  have hkk : ¬k = k' := fun h => hne h.symm
  induction l with
  | nil => simp [jsGet, jsSet, hkk]
  | cons p rest ih =>
    by_cases h : p.1 = k
    · rw [jsSet, if_pos h, jsGet, if_neg hkk, jsGet, if_neg]
      rw [h]; exact hkk
    · simp only [jsSet, if_neg h]
      by_cases h' : p.1 = k'
      · simp [jsGet, h']
      · simp [jsGet, h', ih]

namespace Client

/-- Embedded from `frontend/src/api/client.ts`, `interface Stock`. -/
structure Stock where
  id : String
  name : String
  initial_value : ℚ
  unit : String
  description : String
  deriving DecidableEq

/-- Embedded from `frontend/src/api/client.ts`, `interface Flow`.  The
source and destination stock references are the nullable fields
`from_stock` and `to_stock`. -/
structure Flow where
  id : String
  name : String
  from_stock : Option String
  to_stock : Option String
  equation : String
  unit : String
  description : String
  deriving DecidableEq

/-- Embedded from `frontend/src/api/client.ts`, `interface Parameter`.
The declared fields are exactly `id`, `name`, `value`, `unit`,
`description`; the interface declares no `min`/`max` fields. -/
structure Parameter where
  id : String
  name : String
  value : ℚ
  unit : String
  description : String
  deriving DecidableEq

/-- Embedded from `frontend/src/api/client.ts`, `interface Auxiliary`. -/
structure Auxiliary where
  id : String
  name : String
  equation : String
  unit : String
  description : String
  deriving DecidableEq

/-- Embedded from `frontend/src/api/client.ts`, `interface TimeConfig`
(the TypeScript field `end` is spelled `end_` because `end` is a Lean
keyword). -/
structure TimeConfig where
  start : ℚ
  end_ : ℚ
  dt : ℚ
  unit : String
  deriving DecidableEq

/-- Embedded from `frontend/src/api/client.ts`,
`interface SystemDynamicsModel`. -/
structure SystemDynamicsModel where
  name : String
  description : String
  stocks : List Stock
  flows : List Flow
  parameters : List Parameter
  auxiliaries : List Auxiliary
  time : TimeConfig
  deriving DecidableEq

/-- Embedded from `frontend/src/api/client.ts`, the `metadata` member of
`interface SimulationResult`. -/
structure Metadata where
  model_name : String
  parameters : List (String × ℚ)
  time_config : TimeConfig
  deriving DecidableEq

/-- Embedded from `frontend/src/api/client.ts`,
`interface SimulationResult`: time series plus per-id series maps for
stocks, flows and auxiliaries, and the run metadata. -/
structure SimulationResult where
  time : List ℚ
  stocks : List (String × List ℚ)
  flows : List (String × List ℚ)
  auxiliaries : List (String × List ℚ)
  metadata : Metadata
  deriving DecidableEq

/-- JSON values appearing in the serialized model (string, number or
null), used to state which field names an object carries on the wire. -/
inductive Json where
  | str : String → Json
  | num : ℚ → Json
  | null : Json
  deriving DecidableEq

/-- Serialization of a nullable string field: `null` for a missing
reference, the string otherwise. -/
def Json.ofOptStr : Option String → Json
  | none => Json.null
  | some s => Json.str s

/-- Serialization of a `Flow` object as posted by the client: the
key/value pairs follow the declared fields of `interface Flow` in
declaration order. -/
def Flow.toJson (f : Flow) : List (String × Json) :=
  [("id", Json.str f.id), ("name", Json.str f.name),
   ("from_stock", Json.ofOptStr f.from_stock),
   ("to_stock", Json.ofOptStr f.to_stock),
   ("equation", Json.str f.equation), ("unit", Json.str f.unit),
   ("description", Json.str f.description)]

/-- Serialization of a `Parameter` object as posted by the client: the
key/value pairs follow the declared fields of `interface Parameter` in
declaration order. -/
def Parameter.toJson (p : Parameter) : List (String × Json) :=
  [("id", Json.str p.id), ("name", Json.str p.name),
   ("value", Json.num p.value), ("unit", Json.str p.unit),
   ("description", Json.str p.description)]

/-- Body of a POST to the `/simulate/` endpoint, as built by
`runSimulation` and `runExampleSimulation` in
`frontend/src/api/client.ts`. -/
structure SimulateRequest where
  model : Option SystemDynamicsModel
  example_id : Option String
  parameter_overrides : Option (List (String × ℚ))
  deriving DecidableEq

/-- Response of the `/simulate/` endpoint as read by the client
(`response.data.results`). -/
structure SimulateResponse where
  results : SimulationResult

/-- Embedded from `runSimulation` in `frontend/src/api/client.ts`: posts
`{model, parameter_overrides}` to `/simulate/` and returns the `results`
field of the response.  The transport is abstracted as the function
`post`. -/
def runSimulation (post : SimulateRequest → SimulateResponse)
    (model : SystemDynamicsModel)
    (parameterOverrides : Option (List (String × ℚ))) : SimulationResult :=
  (post { model := some model, example_id := none,
          parameter_overrides := parameterOverrides }).results

/-- Embedded from `runExampleSimulation` in `frontend/src/api/client.ts`:
posts `{example_id, parameter_overrides}` to `/simulate/` and returns the
`results` field of the response. -/
def runExampleSimulation (post : SimulateRequest → SimulateResponse)
    (exampleId : String)
    (parameterOverrides : Option (List (String × ℚ))) : SimulationResult :=
  (post { model := none, example_id := some exampleId,
          parameter_overrides := parameterOverrides }).results

/-- Embedded from `toggleItem` in
`frontend/src/components/SimulationChart.tsx`: an id already in the
selection is removed (every occurrence), a new id is appended. -/
def toggleItem (id : String) (prev : List String) : List String :=
  if id ∈ prev then prev.filter (fun i => i ≠ id) else prev ++ [id]

/-- The three series categories selectable in the chart
(`type DataType = 'stocks' | 'flows' | 'auxiliaries'` in
`frontend/src/components/SimulationChart.tsx`). -/
inductive DataType where
  | stocks
  | flows
  | auxiliaries
  deriving DecidableEq

/-- The dynamic record access `results[selectedType]` used by the chart. -/
def SimulationResult.series (r : SimulationResult) : DataType → List (String × List ℚ)
  | DataType.stocks => r.stocks
  | DataType.flows => r.flows
  | DataType.auxiliaries => r.auxiliaries

/-- One iteration of the `selectedIds.forEach` loop in `chartData`
(`frontend/src/components/SimulationChart.tsx`): a selected id whose
series exists in the chosen category's map is written into the point
with the value at the current index (a JS out-of-range read is
`undefined`, embedded as `none`); an absent series leaves the point
unchanged. -/
def chartStep (r : SimulationResult) (ty : DataType) (idx : ℕ)
    (point : List (String × Option ℚ)) (id : String) : List (String × Option ℚ) :=
  match jsGet id (r.series ty) with
  | some data => jsSet id (data.get? idx) point
  | none => point

/-- The `selectedIds.forEach` loop of `chartData`, as a fold of
`chartStep` over the initial point `{time: t}`. -/
def chartPoint (r : SimulationResult) (ty : DataType) (selectedIds : List String)
    (idx : ℕ) (t : ℚ) : List (String × Option ℚ) :=
  selectedIds.foldl (chartStep r ty idx) [("time", some t)]

/-- Embedded from `chartData` in
`frontend/src/components/SimulationChart.tsx`: one point per entry of
`results.time`, built from the value and its index. -/
def chartData (r : SimulationResult) (ty : DataType) (selectedIds : List String) :
    List (List (String × Option ℚ)) :=
  r.time.enum.map (fun p => chartPoint r ty selectedIds p.1 p.2)

theorem mem_toggleItem (id x : String) (prev : List String) :
    x ∈ toggleItem id prev ↔
      (if id ∈ prev then x ∈ prev ∧ x ≠ id else x ∈ prev ∨ x = id) := by
  by_cases h : id ∈ prev
  · simp [toggleItem, h, List.mem_filter]
  · simp [toggleItem, h]

end Client

end SysDyn

namespace SysDyn

/-- Claim C6: `runSimulation` posts exactly the pair
`(model, parameter_overrides)` and `runExampleSimulation` posts exactly
the pair `(example_id, parameter_overrides)` to the simulate endpoint,
and both return the `results` field of the response. -/
theorem client_simulate_requests :
    ∀ (post : Client.SimulateRequest → Client.SimulateResponse)
      (model : Client.SystemDynamicsModel) (exampleId : String)
      (ov : Option (List (String × ℚ))),
      Client.runSimulation post model ov =
        (post { model := some model, example_id := none,
                parameter_overrides := ov }).results ∧
      Client.runExampleSimulation post exampleId ov =
        (post { model := none, example_id := some exampleId,
                parameter_overrides := ov }).results := by
  intro post model exampleId ov
  exact ⟨rfl, rfl⟩

/-- A concrete flow of the running example (the production inflow of the
README's supply-chain model), used as the explicit input of
counterexamples about the serialized field names. -/
def productionFlow : Client.Flow :=
  { id := "production", name := "Production Rate", from_stock := none,
    to_stock := some "inventory",
    equation := "production_capacity * utilization", unit := "units/day",
    description := "" }

/-- Claim C7 counterexample: the serialized flow object carries no field
named `from` and none named `to`; the concrete flow `productionFlow`
witnesses this. -/
theorem flow_fields_not_from_to :
    ("from" ∉ (Client.Flow.toJson productionFlow).map Prod.fst) ∧
    ("to" ∉ (Client.Flow.toJson productionFlow).map Prod.fst) := by
  decide

/-- Claim C7 (amended): every serialized flow object carries exactly the
fields `id`, `name`, `from_stock`, `to_stock`, `equation`, `unit`,
`description`, and the source and destination stock references are the
nullable fields `from_stock` and `to_stock` (serialized as `null` when
absent). -/
theorem flow_fields_from_stock_to_stock :
    ∀ f : Client.Flow,
      (Client.Flow.toJson f).map Prod.fst =
        ["id", "name", "from_stock", "to_stock", "equation", "unit",
         "description"] ∧
      jsGet "from_stock" (Client.Flow.toJson f) =
        some (Client.Json.ofOptStr f.from_stock) ∧
      jsGet "to_stock" (Client.Flow.toJson f) =
        some (Client.Json.ofOptStr f.to_stock) ∧
      Client.Json.ofOptStr none = Client.Json.null := by
  intro f
  refine ⟨rfl, ?_, ?_, rfl⟩ <;> simp [Client.Flow.toJson, jsGet]

/-- A concrete parameter of the running example, used as the explicit
input of the counterexample about the serialized parameter fields. -/
def capacityParameter : Client.Parameter :=
  { id := "production_capacity", name := "Production Capacity",
    value := 100, unit := "units/day", description := "" }

/-- Claim C8 counterexample: the serialized parameter object carries no
field named `min` and none named `max`; the concrete parameter
`capacityParameter` witnesses this, so the [min, max] bounds are not part
of the model JSON this client hands to the core. -/
theorem parameter_fields_no_bounds :
    ("min" ∉ (Client.Parameter.toJson capacityParameter).map Prod.fst) ∧
    ("max" ∉ (Client.Parameter.toJson capacityParameter).map Prod.fst) := by
  decide

/-- Claim C8 (amended): every serialized parameter object carries exactly
the fields `id`, `name`, `value`, `unit`, `description`; no `min` or
`max` field is declared at this boundary. -/
theorem parameter_fields :
    ∀ p : Client.Parameter,
      (Client.Parameter.toJson p).map Prod.fst =
        ["id", "name", "value", "unit", "description"] := by
  intro p
  rfl

/-- Claim C10: applying the chart's `toggleItem` update for an id twice
yields a selection with exactly the same members as the original list:
every id is in the double toggle exactly when it is in the original
selection. -/
theorem toggleItem_involutive_membership :
    ∀ (id : String) (prev : List String) (x : String),
      x ∈ Client.toggleItem id (Client.toggleItem id prev) ↔ x ∈ prev := by
  intro id prev x
  by_cases h : id ∈ prev
  · have h1 : id ∉ Client.toggleItem id prev := by
      simp [Client.mem_toggleItem, h]
    rw [Client.mem_toggleItem, if_neg h1, Client.mem_toggleItem, if_pos h]
    by_cases hx : x = id
    · subst hx; simp [h]
    · simp [hx]
  · have h1 : id ∈ Client.toggleItem id prev := by
      simp [Client.mem_toggleItem, h]
    rw [Client.mem_toggleItem, if_pos h1, Client.mem_toggleItem, if_neg h]
    by_cases hx : x = id
    · subst hx; simp [h]
    · simp [hx]

end SysDyn

namespace SysDyn

theorem mem_keys_jsSet {α : Type} (k k' : String) (v : α) (l : List (String × α))
    (hne : k' ≠ k) :
    (k' ∈ (jsSet k v l).map Prod.fst) ↔ (k' ∈ l.map Prod.fst) := by
  induction l with
  | nil => simp [jsSet, hne]
  | cons p rest ih =>
    by_cases h : p.1 = k
    · rw [jsSet, if_pos h]
      simp [h]
    · rw [jsSet, if_neg h]
      simp only [List.map_cons, List.mem_cons]
      rw [ih]

theorem jsGet_foldl_chartStep_time (r : Client.SimulationResult) (ty : Client.DataType)
    (idx : ℕ) (ids : List String) (point : List (String × Option ℚ))
    (h : ∀ id ∈ ids, id ≠ "time") :
    jsGet "time" (ids.foldl (Client.chartStep r ty idx) point) = jsGet "time" point := by
  induction ids generalizing point with
  | nil => rfl
  | cons id rest ih =>
    rw [List.foldl_cons, ih _ (fun i hi => h i (List.mem_cons_of_mem _ hi))]
    unfold Client.chartStep
    cases jsGet id (r.series ty) with
    | none => rfl
    | some data =>
      exact jsGet_jsSet_ne id "time" (data.get? idx) point
        (fun hc => h id (List.mem_cons_self _ _) hc.symm)

theorem keys_foldl_chartStep_absent (r : Client.SimulationResult) (ty : Client.DataType)
    (idx : ℕ) (ids : List String) (point : List (String × Option ℚ)) (id₀ : String)
    (habs : jsGet id₀ (r.series ty) = none)
    (hpt : id₀ ∉ point.map Prod.fst) :
    id₀ ∉ (ids.foldl (Client.chartStep r ty idx) point).map Prod.fst := by
  induction ids generalizing point with
  | nil => exact hpt
  | cons id rest ih =>
    rw [List.foldl_cons]
    refine ih _ ?_
    unfold Client.chartStep
    cases hser : jsGet id (r.series ty) with
    | none => exact hpt
    | some data =>
      have hne : id₀ ≠ id := by
        intro hc; rw [hc, hser] at habs; exact Option.noConfusion habs
      exact fun hc => hpt ((mem_keys_jsSet id id₀ (data.get? idx) point hne).mp hc)

theorem chartData_length (r : Client.SimulationResult) (ty : Client.DataType)
    (ids : List String) :
    (Client.chartData r ty ids).length = r.time.length := by
  simp [Client.chartData]

theorem chartData_get (r : Client.SimulationResult) (ty : Client.DataType)
    (ids : List String) (i : ℕ) (hi : i < (Client.chartData r ty ids).length)
    (ht : i < r.time.length) :
    (Client.chartData r ty ids).get ⟨i, hi⟩ =
      Client.chartPoint r ty ids i (r.time.get ⟨i, ht⟩) := by
  simp [Client.chartData, Client.chartPoint]

end SysDyn

namespace SysDyn

/-- A simulation result whose stock map contains a series keyed by the
literal string `time`, the explicit concrete input of the chart
counterexample. -/
def chartClashResult : Client.SimulationResult :=
  { time := [0], stocks := [("time", [999])], flows := [], auxiliaries := [],
    metadata := { model_name := "clash", parameters := [],
                  time_config := { start := 0, end_ := 1, dt := 1, unit := "day" } } }

/-- Claim C9 counterexample: selecting the id `time` in a result whose
stock map has a series keyed `time` overwrites the point's time field —
the single point's `time` entry reads `999` although `results.time[0]`
is `0`, so the chart point's time field is not `results.time[i]` for
every selection. -/
theorem chartData_time_overwritten :
    chartClashResult.time = [0] ∧
    (Client.chartData chartClashResult Client.DataType.stocks ["time"]).map
        (fun point => jsGet "time" point) = [some (some 999)] ∧
    some (some (999 : ℚ)) ≠ some (some (0 : ℚ)) := by
  decide

/-- The simulation result of the README's inventory example, used as
concrete input of chart witnesses. -/
def chartExampleResult : Client.SimulationResult :=
  { time := [0, 1, 2],
    stocks := [("inventory", [1000, 1030, 1060])],
    flows := [("production", [80, 80, 80]), ("shipments", [50, 50, 50])],
    auxiliaries := [("demand", [50, 50, 50])],
    metadata := { model_name := "Supply Chain", parameters := [],
                  time_config := { start := 0, end_ := 2, dt := 1, unit := "day" } } }

/-- Claim C9 (amended): provided the literal id `time` is not among the
selected ids, the chart data has exactly one point per entry of
`results.time`, the point at index `i` has its time field equal to
`results.time[i]`, and a selected id whose series is absent from the
chosen category's map is omitted from every point. -/
theorem chartData_spec (r : Client.SimulationResult) (ty : Client.DataType)
    (ids : List String) (htime : "time" ∉ ids) :
    (Client.chartData r ty ids).length = r.time.length ∧
    (∀ (i : ℕ) (hi : i < (Client.chartData r ty ids).length)
       (ht : i < r.time.length),
       jsGet "time" ((Client.chartData r ty ids).get ⟨i, hi⟩) =
         some (some (r.time.get ⟨i, ht⟩))) ∧
    (∀ id ∈ ids, jsGet id (r.series ty) = none →
       ∀ point ∈ Client.chartData r ty ids, id ∉ point.map Prod.fst) := by
  have hids : ∀ id ∈ ids, id ≠ "time" := fun id hid hc => htime (hc ▸ hid)
  refine ⟨chartData_length r ty ids, ?_, ?_⟩
  · intro i hi ht
    rw [chartData_get r ty ids i hi ht]
    rw [Client.chartPoint, jsGet_foldl_chartStep_time r ty i ids _ hids]
    simp [jsGet]
  · intro id hid habs point hpt
    have hne : id ≠ "time" := hids id hid
    rw [Client.chartData, List.mem_map] at hpt
    obtain ⟨p, _, hp⟩ := hpt
    rw [← hp, Client.chartPoint]
    refine keys_foldl_chartStep_absent r ty p.1 ids _ id habs ?_
    simp [hne]

/-- Witness for `chartData_spec` at the README inventory example with
the selection `[inventory, missing]`: the hypothesis holds and the
point count and the omission of the absent id `missing` follow. -/
theorem chartData_spec_witness :
    ("time" ∉ (["inventory", "missing"] : List String)) ∧
    (Client.chartData chartExampleResult Client.DataType.stocks
        ["inventory", "missing"]).length = chartExampleResult.time.length ∧
    (∀ point ∈ Client.chartData chartExampleResult Client.DataType.stocks
        ["inventory", "missing"], "missing" ∉ point.map Prod.fst) := by
  refine ⟨by decide, (chartData_spec chartExampleResult Client.DataType.stocks
    ["inventory", "missing"] (by decide)).1, ?_⟩
  exact (chartData_spec chartExampleResult Client.DataType.stocks
    ["inventory", "missing"] (by decide)).2.2 "missing" (by decide) (by decide)

end SysDyn

namespace SysDyn

namespace Engine

/-- Modelled from the spec: the equation grammar of §4.3 (the Equation
Compiler is not among the shipped sources).  Expression trees over
numeric literals, the reserved time symbol, identifier references,
arithmetic operators and the whitelisted functions; the transcendental
functions `exp`/`log` of the configurable whitelist are omitted because
the claims under verification never use them. -/
inductive Expr where
  | num : ℚ → Expr
  | time : Expr
  | ident : String → Expr
  | add : Expr → Expr → Expr
  | sub : Expr → Expr → Expr
  | mul : Expr → Expr → Expr
  | div : Expr → Expr → Expr
  | emin : Expr → Expr → Expr
  | emax : Expr → Expr → Expr
  | eabs : Expr → Expr
  deriving DecidableEq

/-- Evaluation failures of a single expression: a division by zero (the
only non-finite value producible over `ℚ`, §4.4 step 4) or an identifier
missing from the evaluation environment. -/
inductive EvalErr where
  | divByZero
  | unresolved (name : String)
  deriving DecidableEq

/-- Modelled from the spec: the typed error results of §4.4 and §7 that
the claims mention (`ParameterBoundsError`, `NumericalDivergenceError`
naming the offending quantity and step index, and the compiler's
unresolved-reference error surfaced at run time). -/
inductive SimulationError where
  | parameterBounds (paramId : String)
  | numericalDivergence (quantityId : String) (step : ℕ)
  | unresolvedReference (name : String)
  deriving DecidableEq

/-- Modelled from the spec: the explicit AST evaluator of §9 — always a
value or a typed error, no side effects. -/
def Expr.eval (vars : List (String × ℚ)) (t : ℚ) : Expr → Except EvalErr ℚ
  | Expr.num q => Except.ok q
  | Expr.time => Except.ok t
  | Expr.ident x =>
    match jsGet x vars with
    | some v => Except.ok v
    | none => Except.error (EvalErr.unresolved x)
  | Expr.add a b =>
    match a.eval vars t, b.eval vars t with
    | Except.ok x, Except.ok y => Except.ok (x + y)
    | Except.error e, _ => Except.error e
    | _, Except.error e => Except.error e
  | Expr.sub a b =>
    match a.eval vars t, b.eval vars t with
    | Except.ok x, Except.ok y => Except.ok (x - y)
    | Except.error e, _ => Except.error e
    | _, Except.error e => Except.error e
  | Expr.mul a b =>
    match a.eval vars t, b.eval vars t with
    | Except.ok x, Except.ok y => Except.ok (x * y)
    | Except.error e, _ => Except.error e
    | _, Except.error e => Except.error e
  | Expr.div a b =>
    match a.eval vars t, b.eval vars t with
    | Except.ok x, Except.ok y =>
      if y = 0 then Except.error EvalErr.divByZero else Except.ok (x / y)
    | Except.error e, _ => Except.error e
    | _, Except.error e => Except.error e
  | Expr.emin a b =>
    match a.eval vars t, b.eval vars t with
    | Except.ok x, Except.ok y => Except.ok (min x y)
    | Except.error e, _ => Except.error e
    | _, Except.error e => Except.error e
  | Expr.emax a b =>
    match a.eval vars t, b.eval vars t with
    | Except.ok x, Except.ok y => Except.ok (max x y)
    | Except.error e, _ => Except.error e
    | _, Except.error e => Except.error e
  | Expr.eabs a =>
    match a.eval vars t with
    | Except.ok x => Except.ok |x|
    | Except.error e => Except.error e

/-- Modelled from the spec: a stock of §3 — id and initial value. -/
structure Stock where
  id : String
  initial_value : ℚ
  deriving DecidableEq

/-- Modelled from the spec: a flow of §3 with its compiled equation;
`none` as source or destination is the external source or sink. -/
structure Flow where
  id : String
  from_stock : Option String
  to_stock : Option String
  expr : Expr
  deriving DecidableEq

/-- Modelled from the spec: an auxiliary of §3 with its compiled
equation. -/
structure Auxiliary where
  id : String
  expr : Expr
  deriving DecidableEq

/-- Modelled from the spec: a parameter of §3 — numeric value and
optional `min`/`max` bounds. -/
structure Parameter where
  id : String
  value : ℚ
  min : Option ℚ
  max : Option ℚ
  deriving DecidableEq

/-- One entry of the topologically ordered evaluation sequence of a
compiled model (§3, CompiledModel): an auxiliary or a flow. -/
inductive EvalItem where
  | auxItem (a : Auxiliary)
  | flowItem (f : Flow)
  deriving DecidableEq

/-- Identifier of an evaluation item. -/
def EvalItem.qid : EvalItem → String
  | EvalItem.auxItem a => a.id
  | EvalItem.flowItem f => f.id

/-- Compiled equation of an evaluation item. -/
def EvalItem.expr : EvalItem → Expr
  | EvalItem.auxItem a => a.expr
  | EvalItem.flowItem f => f.expr

/-- Modelled from the spec: the `CompiledModel` of §3 — the validated
model together with the topologically ordered evaluation sequence for
auxiliaries and flows produced by the Equation Compiler. -/
structure CompiledModel where
  model_name : String
  stocks : List Stock
  flows : List Flow
  auxiliaries : List Auxiliary
  parameters : List Parameter
  evalOrder : List EvalItem
  deriving DecidableEq

/-- Bounds check of §3: the value must lie within the `[min, max]`
interval whenever the respective bound is present. -/
def inBoundsB (p : Parameter) (v : ℚ) : Bool :=
  (match p.min with
   | some m => decide (m ≤ v)
   | none => true) &&
  (match p.max with
   | some m => decide (v ≤ m)
   | none => true)

/-- Modelled from the spec: §4.4 step 1 — apply parameter overrides in
declaration order, re-checking bounds; an out-of-bounds override is a
fatal `ParameterBoundsError`, never clamped. -/
def applyOverrides (ov : List (String × ℚ)) :
    List Parameter → Except SimulationError (List Parameter)
  | [] => Except.ok []
  | p :: ps =>
    match jsGet p.id ov with
    | some v =>
      if inBoundsB p v then
        match applyOverrides ov ps with
        | Except.ok rest => Except.ok ({ p with value := v } :: rest)
        | Except.error e => Except.error e
      else Except.error (SimulationError.parameterBounds p.id)
    | none =>
      match applyOverrides ov ps with
      | Except.ok rest => Except.ok (p :: rest)
      | Except.error e => Except.error e

/-- Modelled from the spec: number of integration steps after the first
sample, `⌈(end − start)/dt⌉` (§8, monotone sampling; the ceiling is the
deterministic rounding rule chosen by §9's open question, including a
final short step). -/
def numSteps (tc : Client.TimeConfig) : ℕ :=
  (Int.ceil ((tc.end_ - tc.start) / tc.dt)).toNat

/-- Modelled from the spec: the sampled time axis — one sample per step
from `start` to `end` inclusive at spacing `dt`. -/
def timeGrid (tc : Client.TimeConfig) : List ℚ :=
  (List.range (numSteps tc + 1)).map (fun i : ℕ => tc.start + (i : ℚ) * tc.dt)

/-- Modelled from the spec: §4.4 step 3a — evaluate auxiliaries and
flows in the topologically sorted order from compilation, extending the
environment of current stock, parameter and already-evaluated values; a
division by zero surfaces as a `NumericalDivergenceError` naming the
offending quantity and step index. -/
def evalItems (step : ℕ) (t : ℚ) (vars : List (String × ℚ)) :
    List EvalItem → Except SimulationError (List (String × ℚ))
  | [] => Except.ok vars
  | it :: rest =>
    match Expr.eval vars t it.expr with
    | Except.ok v => evalItems step t (jsSet it.qid v vars) rest
    | Except.error EvalErr.divByZero =>
      Except.error (SimulationError.numericalDivergence it.qid step)
    | Except.error (EvalErr.unresolved x) =>
      Except.error (SimulationError.unresolvedReference x)

/-- Sum of the recorded values of the given flows in the current
environment (used for a stock's inflow and outflow totals). -/
def sumFlows (vars : List (String × ℚ)) : List Flow → Except SimulationError ℚ
  | [] => Except.ok 0
  | f :: rest =>
    match jsGet f.id vars with
    | some v =>
      match sumFlows vars rest with
      | Except.ok s => Except.ok (v + s)
      | Except.error e => Except.error e
    | none => Except.error (SimulationError.unresolvedReference f.id)

/-- Modelled from the spec: §4.4 step 3c — advance every stock's value
by (sum of inflows − sum of outflows) × dt, forward Euler. -/
def advanceStocks (flows : List Flow) (vars : List (String × ℚ)) (dt : ℚ) :
    List (String × ℚ) → Except SimulationError (List (String × ℚ))
  | [] => Except.ok []
  | (sid, v) :: rest =>
    match sumFlows vars (flows.filter (fun f => f.to_stock = some sid)) with
    | Except.error e => Except.error e
    | Except.ok infl =>
      match sumFlows vars (flows.filter (fun f => f.from_stock = some sid)) with
      | Except.error e => Except.error e
      | Except.ok outfl =>
        match advanceStocks flows vars dt rest with
        | Except.ok rest' => Except.ok ((sid, v + (infl - outfl) * dt) :: rest')
        | Except.error e => Except.error e

/-- Modelled from the spec: the fixed-step integration loop of §4.4
step 3 over the listed step indices, returning the evaluation
environment recorded at every sampled step. -/
def runSteps (cm : CompiledModel) (params : List Parameter)
    (tc : Client.TimeConfig) :
    List ℕ → List (String × ℚ) →
      Except SimulationError (List (List (String × ℚ)))
  | [], _ => Except.ok []
  | i :: rest, stockVals =>
    match evalItems i (tc.start + (i : ℚ) * tc.dt)
        (stockVals ++ params.map (fun p => (p.id, p.value))) cm.evalOrder with
    | Except.ok env =>
      match advanceStocks cm.flows env tc.dt stockVals with
      | Except.ok stockVals' =>
        match runSteps cm params tc rest stockVals' with
        | Except.ok envs => Except.ok (env :: envs)
        | Except.error e => Except.error e
      | Except.error e => Except.error e
    | Except.error e => Except.error e

/-- Sampled series of the given ids, one value per recorded step, read
off the recorded environments. -/
def seriesFor (envs : List (List (String × ℚ))) (ids : List String) :
    List (String × List ℚ) :=
  ids.map (fun id => (id, envs.map (fun env => (jsGet id env).getD 0)))

/-- Modelled from the spec: §4.4 `simulate(compiledModel, timeConfig,
parameterOverrides) -> SimulationResult | SimulationError` — apply
overrides with bounds re-check, initialize the state vector from the
stocks' initial values, run the fixed-step loop, and return the sampled
series plus the effective parameter values as metadata, in the result
shape of §6. -/
def simulate (cm : CompiledModel) (tc : Client.TimeConfig)
    (overrides : List (String × ℚ)) :
    Except SimulationError Client.SimulationResult :=
  match applyOverrides overrides cm.parameters with
  | Except.error e => Except.error e
  | Except.ok params =>
    match runSteps cm params tc (List.range (numSteps tc + 1))
        (cm.stocks.map (fun s => (s.id, s.initial_value))) with
    | Except.error e => Except.error e
    | Except.ok envs =>
      Except.ok
        { time := timeGrid tc
          stocks := seriesFor envs (cm.stocks.map Stock.id)
          flows := seriesFor envs (cm.flows.map Flow.id)
          auxiliaries := seriesFor envs (cm.auxiliaries.map Auxiliary.id)
          metadata :=
            { model_name := cm.model_name
              parameters := params.map (fun p => (p.id, p.value))
              time_config := tc } }

/-- Modelled from the spec: §4.5 Scenario Runner — N independent engine
invocations over the shared immutable compiled model, results
addressable by scenario name. -/
def runScenarios (cm : CompiledModel) (tc : Client.TimeConfig)
    (scenarios : List (String × List (String × ℚ))) :
    List (String × Except SimulationError Client.SimulationResult) :=
  scenarios.map (fun sc => (sc.1, simulate cm tc sc.2))

end Engine

end SysDyn

namespace SysDyn

/-- The constant market-demand auxiliary of the README's supply-chain
example (`demand` = 50). -/
def demandAux : Engine.Auxiliary := { id := "demand", expr := Engine.Expr.num 50 }

/-- The production inflow of the README's supply-chain example,
equation `production_capacity * utilization`. -/
def productionInflow : Engine.Flow :=
  { id := "production", from_stock := none, to_stock := some "inventory",
    expr := Engine.Expr.mul (Engine.Expr.ident "production_capacity")
      (Engine.Expr.ident "utilization") }

/-- The shipments outflow of the README's supply-chain example,
equation `min(demand, inventory / 5)`. -/
def shipmentsOutflow : Engine.Flow :=
  { id := "shipments", from_stock := some "inventory", to_stock := none,
    expr := Engine.Expr.emin (Engine.Expr.ident "demand")
      (Engine.Expr.div (Engine.Expr.ident "inventory") (Engine.Expr.num 5)) }

/-- The compiled supply-chain example model: one stock `inventory`
(initial 1000), inflow `production`, outflow `shipments`, constant
auxiliary `demand` = 50, parameters `production_capacity` = 100 (bounds
[0, 500]) and `utilization` = 0.8 (bounds [0, 1]); the evaluation order
puts the auxiliary before the flows that reference it. -/
def inventoryModel : Engine.CompiledModel :=
  { model_name := "Supply Chain"
    stocks := [{ id := "inventory", initial_value := 1000 }]
    flows := [productionInflow, shipmentsOutflow]
    auxiliaries := [demandAux]
    parameters :=
      [{ id := "production_capacity", value := 100, min := some 0, max := some 500 },
       { id := "utilization", value := 4/5, min := some 0, max := some 1 }]
    evalOrder := [Engine.EvalItem.auxItem demandAux,
                  Engine.EvalItem.flowItem productionInflow,
                  Engine.EvalItem.flowItem shipmentsOutflow] }

/-- The example time configuration start = 0, end = 2, dt = 1. -/
def inventoryTime : Client.TimeConfig :=
  { start := 0, end_ := 2, dt := 1, unit := "days" }

/-- The full simulation result of the supply-chain example. -/
def inventoryExpected : Client.SimulationResult :=
  { time := [0, 1, 2],
    stocks := [("inventory", [1000, 1030, 1060])],
    flows := [("production", [80, 80, 80]), ("shipments", [50, 50, 50])],
    auxiliaries := [("demand", [50, 50, 50])],
    metadata := { model_name := "Supply Chain",
                  parameters := [("production_capacity", 100), ("utilization", 4/5)],
                  time_config := inventoryTime } }

/-- Claim C2: on the supply-chain example over start=0, end=2, dt=1 the
engine returns the inventory series [1000, 1030, 1060] at steps 0, 1, 2,
and the recorded values satisfy the forward-Euler step
`next = current + (inflows − outflows) × dt` with production
100 × 0.8 = 80 and shipments min(50, inventory/5) = 50. -/
theorem inventory_scenario :
    Engine.simulate inventoryModel inventoryTime [] = Except.ok inventoryExpected ∧
    jsGet "inventory" inventoryExpected.stocks = some [1000, 1030, 1060] ∧
    (80 : ℚ) = 100 * (4/5) ∧
    (50 : ℚ) = min 50 (1000/5) ∧
    (1030 : ℚ) = 1000 + (80 - 50) * 1 ∧
    (50 : ℚ) = min 50 (1030/5) ∧
    (1060 : ℚ) = 1030 + (80 - 50) * 1 := by
  refine ⟨by with_unfolding_all rfl, by with_unfolding_all rfl, ?_, ?_, ?_, ?_, ?_⟩ <;>
    with_unfolding_all rfl

/-- Claim C1: the engine is a pure function of
`(compiledModel, timeConfig, parameterOverrides)`, so two invocations on
identical inputs give identical results, and every entry of a parallel
scenario run equals an independent sequential invocation of `simulate`
with that scenario's overrides. -/
theorem simulate_deterministic :
    (∀ (cm : Engine.CompiledModel) (tc : Client.TimeConfig)
       (ov : List (String × ℚ)),
       Engine.simulate cm tc ov = Engine.simulate cm tc ov) ∧
    (∀ (cm : Engine.CompiledModel) (tc : Client.TimeConfig)
       (scenarios : List (String × List (String × ℚ))) (i : ℕ),
       (Engine.runScenarios cm tc scenarios).get? i =
         (scenarios.get? i).map (fun sc => (sc.1, Engine.simulate cm tc sc.2))) := by
  refine ⟨fun _ _ _ => rfl, ?_⟩
  intro cm tc scenarios i
  simp [Engine.runScenarios]

end SysDyn

namespace SysDyn

theorem runSteps_length (cm : Engine.CompiledModel) (params : List Engine.Parameter)
    (tc : Client.TimeConfig) :
    ∀ (steps : List ℕ) (st : List (String × ℚ)) (envs : List (List (String × ℚ))),
      Engine.runSteps cm params tc steps st = Except.ok envs →
      envs.length = steps.length := by
  intro steps
  induction steps with
  | nil =>
    intro st envs h
    rw [Engine.runSteps] at h
    cases h
    rfl
  | cons i rest ih =>
    intro st envs h
    rw [Engine.runSteps] at h
    split at h
    · rename_i env henv
      split at h
      · rename_i st' hst
        split at h
        · rename_i envs' henvs
          cases h
          simpa using ih st' envs' henvs
        · exact Except.noConfusion h
      · exact Except.noConfusion h
    · exact Except.noConfusion h

theorem seriesFor_length (envs : List (List (String × ℚ))) (ids : List String) :
    ∀ s ∈ Engine.seriesFor envs ids, s.2.length = envs.length := by
  intro s hs
  rw [Engine.seriesFor, List.mem_map] at hs
  obtain ⟨id, _, hid⟩ := hs
  rw [← hid]
  simp

theorem timeGrid_length (tc : Client.TimeConfig) :
    (Engine.timeGrid tc).length = Engine.numSteps tc + 1 := by
  rw [Engine.timeGrid, List.length_map, List.length_range]

theorem simulate_ok_shape (cm : Engine.CompiledModel) (tc : Client.TimeConfig)
    (ov : List (String × ℚ)) (res : Client.SimulationResult)
    (h : Engine.simulate cm tc ov = Except.ok res) :
    ∃ params envs,
      Engine.applyOverrides ov cm.parameters = Except.ok params ∧
      Engine.runSteps cm params tc (List.range (Engine.numSteps tc + 1))
        (cm.stocks.map (fun s => (s.id, s.initial_value))) = Except.ok envs ∧
      res = { time := Engine.timeGrid tc
              stocks := Engine.seriesFor envs (cm.stocks.map Engine.Stock.id)
              flows := Engine.seriesFor envs (cm.flows.map Engine.Flow.id)
              auxiliaries :=
                Engine.seriesFor envs (cm.auxiliaries.map Engine.Auxiliary.id)
              metadata :=
                { model_name := cm.model_name
                  parameters := params.map (fun p => (p.id, p.value))
                  time_config := tc } } := by
  rw [Engine.simulate] at h
  split at h
  · exact Except.noConfusion h
  · rename_i params hparams
    split at h
    · exact Except.noConfusion h
    · rename_i envs henvs
      cases h
      exact ⟨params, envs, hparams, henvs, rfl⟩

end SysDyn

namespace SysDyn

/-- Claim C5: every successfully delivered simulation result is a
`Client.SimulationResult` — time series, per-id series maps for stocks,
flows and auxiliaries, and metadata carrying model name, effective
parameters and the time configuration — and every series array has the
same length as the sampled time axis. -/
theorem result_shape_and_lengths :
    ∀ (cm : Engine.CompiledModel) (tc : Client.TimeConfig)
      (ov : List (String × ℚ)) (res : Client.SimulationResult),
      Engine.simulate cm tc ov = Except.ok res →
      res.time.length = Engine.numSteps tc + 1 ∧
      (∀ s ∈ res.stocks, s.2.length = res.time.length) ∧
      (∀ s ∈ res.flows, s.2.length = res.time.length) ∧
      (∀ s ∈ res.auxiliaries, s.2.length = res.time.length) ∧
      res.metadata.model_name = cm.model_name ∧
      res.metadata.time_config = tc := by
  intro cm tc ov res h
  obtain ⟨params, envs, _, henvs, hres⟩ := simulate_ok_shape cm tc ov res h
  have hlen : envs.length = Engine.numSteps tc + 1 := by
    have := runSteps_length cm params tc (List.range (Engine.numSteps tc + 1))
      (cm.stocks.map (fun s => (s.id, s.initial_value))) envs henvs
    simpa using this
  subst hres
  refine ⟨timeGrid_length tc, ?_, ?_, ?_, rfl, rfl⟩ <;>
    · intro s hs
      rw [seriesFor_length envs _ s hs, hlen, timeGrid_length tc]

/-- Witness for `result_shape_and_lengths` at the supply-chain example:
the run succeeds and the stock series lengths match the time axis. -/
theorem result_shape_and_lengths_witness :
    Engine.simulate inventoryModel inventoryTime [] = Except.ok inventoryExpected ∧
    inventoryExpected.time.length = Engine.numSteps inventoryTime + 1 ∧
    (∀ s ∈ inventoryExpected.stocks, s.2.length = inventoryExpected.time.length) := by
  have h : Engine.simulate inventoryModel inventoryTime [] =
      Except.ok inventoryExpected := by with_unfolding_all rfl
  exact ⟨h, (result_shape_and_lengths inventoryModel inventoryTime [] inventoryExpected h).1,
    (result_shape_and_lengths inventoryModel inventoryTime [] inventoryExpected h).2.1⟩

end SysDyn

namespace SysDyn

namespace Engine

/-- Effect of the override map on a single parameter: an overridden
parameter takes the override value, any other keeps its default. -/
def applyOv (ov : List (String × ℚ)) (p : Parameter) : Parameter :=
  match jsGet p.id ov with
  | some v => { p with value := v }
  | none => p

/-- Whether an error result is a `ParameterBoundsError`. -/
def noBoundsErr {α : Type} (x : Except SimulationError α) : Prop :=
  ∀ pid, x ≠ Except.error (SimulationError.parameterBounds pid)

end Engine

theorem applyOverrides_error_of_oob (ov : List (String × ℚ)) :
    ∀ (ps : List Engine.Parameter) (p : Engine.Parameter) (v : ℚ),
      p ∈ ps → jsGet p.id ov = some v → Engine.inBoundsB p v = false →
      ∃ pid, Engine.applyOverrides ov ps =
        Except.error (Engine.SimulationError.parameterBounds pid) := by
  intro ps
  induction ps with
  | nil => intro p v hp _ _; exact absurd hp (List.not_mem_nil p)
  | cons q rest ih =>
    intro p v hp hov hoob
    rcases List.mem_cons.mp hp with hpq | hmem
    · subst hpq
      exact ⟨p.id, by simp [Engine.applyOverrides, hov, hoob]⟩
    · obtain ⟨pid, hpid⟩ := ih p v hmem hov hoob
      cases hq : jsGet q.id ov with
      | none => exact ⟨pid, by simp [Engine.applyOverrides, hq, hpid]⟩
      | some w =>
        by_cases hbw : Engine.inBoundsB q w
        · exact ⟨pid, by simp [Engine.applyOverrides, hq, hbw, hpid]⟩
        · exact ⟨q.id, by simp [Engine.applyOverrides, hq, hbw]⟩

theorem applyOverrides_ok_eq (ov : List (String × ℚ)) :
    ∀ (ps params : List Engine.Parameter),
      Engine.applyOverrides ov ps = Except.ok params →
      params = ps.map (Engine.applyOv ov) := by
  intro ps
  induction ps with
  | nil =>
    intro params h
    rw [Engine.applyOverrides] at h
    cases h
    rfl
  | cons q rest ih =>
    intro params h
    rw [Engine.applyOverrides] at h
    split at h
    · rename_i v hv
      split at h
      · split at h
        · rename_i rest' hrest
          cases h
          simp [Engine.applyOv, hv, List.map_cons, ← ih rest' hrest]
        · exact Except.noConfusion h
      · exact Except.noConfusion h
    · rename_i hv
      split at h
      · rename_i rest' hrest
        cases h
        simp [Engine.applyOv, hv, List.map_cons, ← ih rest' hrest]
      · exact Except.noConfusion h

theorem applyOverrides_ok_of_inbounds (ov : List (String × ℚ)) :
    ∀ ps : List Engine.Parameter,
      (∀ p ∈ ps, ∀ v, jsGet p.id ov = some v → Engine.inBoundsB p v = true) →
      Engine.applyOverrides ov ps = Except.ok (ps.map (Engine.applyOv ov)) := by
  intro ps
  induction ps with
  | nil => intro _; rfl
  | cons q rest ih =>
    intro hb
    have hrest := ih (fun p hp v hv => hb p (List.mem_cons_of_mem q hp) v hv)
    cases hq : jsGet q.id ov with
    | none => simp [Engine.applyOverrides, hq, hrest, Engine.applyOv]
    | some w =>
      simp [Engine.applyOverrides, hq, hb q (List.mem_cons_self q rest) w hq,
        hrest, Engine.applyOv]

end SysDyn

namespace SysDyn

theorem applyOv_id (ov : List (String × ℚ)) (p : Engine.Parameter) :
    (Engine.applyOv ov p).id = p.id := by
  rw [Engine.applyOv]
  cases jsGet p.id ov <;> rfl

theorem evalItems_noBounds (step : ℕ) (t : ℚ) :
    ∀ (items : List Engine.EvalItem) (vars : List (String × ℚ)),
      Engine.noBoundsErr (Engine.evalItems step t vars items) := by
  intro items
  induction items with
  | nil =>
    intro vars pid h
    rw [Engine.evalItems] at h
    exact Except.noConfusion h
  | cons it rest ih =>
    intro vars pid h
    rw [Engine.evalItems] at h
    split at h
    · exact ih _ pid h
    · simp at h
    · simp at h

theorem sumFlows_noBounds (vars : List (String × ℚ)) :
    ∀ fs : List Engine.Flow, Engine.noBoundsErr (Engine.sumFlows vars fs) := by
  intro fs
  induction fs with
  | nil =>
    intro pid h
    rw [Engine.sumFlows] at h
    exact Except.noConfusion h
  | cons f rest ih =>
    intro pid h
    rw [Engine.sumFlows] at h
    split at h
    · split at h
      · exact Except.noConfusion h
      · rename_i e he
        cases h
        exact ih pid he
    · simp at h

theorem advanceStocks_noBounds (flows : List Engine.Flow)
    (vars : List (String × ℚ)) (dt : ℚ) :
    ∀ st : List (String × ℚ),
      Engine.noBoundsErr (Engine.advanceStocks flows vars dt st) := by
  intro st
  induction st with
  | nil =>
    intro pid h
    rw [Engine.advanceStocks] at h
    exact Except.noConfusion h
  | cons sv rest ih =>
    intro pid h
    rw [Engine.advanceStocks] at h
    split at h
    · rename_i e he
      cases h
      exact sumFlows_noBounds vars _ pid he
    · rename_i infl hinfl
      split at h
      · rename_i e he
        cases h
        exact sumFlows_noBounds vars _ pid he
      · rename_i outfl houtfl
        split at h
        · exact Except.noConfusion h
        · rename_i e he
          cases h
          exact ih pid he

theorem runSteps_noBounds (cm : Engine.CompiledModel)
    (params : List Engine.Parameter) (tc : Client.TimeConfig) :
    ∀ (steps : List ℕ) (st : List (String × ℚ)),
      Engine.noBoundsErr (Engine.runSteps cm params tc steps st) := by
  intro steps
  induction steps with
  | nil =>
    intro st pid h
    rw [Engine.runSteps] at h
    exact Except.noConfusion h
  | cons i rest ih =>
    intro st pid h
    rw [Engine.runSteps] at h
    split at h
    · rename_i env henv
      split at h
      · rename_i st' hst
        split at h
        · exact Except.noConfusion h
        · rename_i e he
          cases h
          exact ih st' pid he
      · rename_i e he
        cases h
        exact advanceStocks_noBounds cm.flows env tc.dt st pid he
    · rename_i e he
      cases h
      exact evalItems_noBounds i _ cm.evalOrder _ pid he

theorem jsGet_params_value (ov : List (String × ℚ)) :
    ∀ (ps : List Engine.Parameter) (p : Engine.Parameter) (v : ℚ),
      (ps.map Engine.Parameter.id).Nodup → p ∈ ps → jsGet p.id ov = some v →
      jsGet p.id
        ((ps.map (Engine.applyOv ov)).map (fun q => (q.id, q.value))) = some v := by
  intro ps
  induction ps with
  | nil => intro p v _ hp _; exact absurd hp (List.not_mem_nil p)
  | cons q rest ih =>
    intro p v hnd hp hov
    rw [List.map_cons, List.nodup_cons] at hnd
    rcases List.mem_cons.mp hp with hpq | hmem
    · subst hpq
      simp [jsGet, Engine.applyOv, hov]
    · have hne : q.id ≠ p.id := by
        intro hc
        exact hnd.1 (hc ▸ List.mem_map.mpr ⟨p, hmem, rfl⟩)
      simp only [List.map_cons, jsGet, applyOv_id, hne, if_false]
      exact ih p v hnd.2 hmem hov

end SysDyn

namespace SysDyn

/-- Claim C4: a run-time parameter override outside a parameter's
declared [min, max] bounds always fails the run with a
`ParameterBoundsError` (never silently clamped); with every override
inside the bounds the run never fails with a `ParameterBoundsError`,
and whenever a result is returned every override of a declared
parameter is reflected in `metadata.parameters`. -/
theorem parameter_bounds_enforced :
    (∀ (cm : Engine.CompiledModel) (tc : Client.TimeConfig)
       (ov : List (String × ℚ)) (p : Engine.Parameter) (v : ℚ),
       p ∈ cm.parameters → jsGet p.id ov = some v →
       Engine.inBoundsB p v = false →
       ∃ pid, Engine.simulate cm tc ov =
         Except.error (Engine.SimulationError.parameterBounds pid)) ∧
    (∀ (cm : Engine.CompiledModel) (tc : Client.TimeConfig)
       (ov : List (String × ℚ)),
       (∀ p ∈ cm.parameters, ∀ v, jsGet p.id ov = some v →
          Engine.inBoundsB p v = true) →
       Engine.noBoundsErr (Engine.simulate cm tc ov)) ∧
    (∀ (cm : Engine.CompiledModel) (tc : Client.TimeConfig)
       (ov : List (String × ℚ)) (res : Client.SimulationResult)
       (p : Engine.Parameter) (v : ℚ),
       (cm.parameters.map Engine.Parameter.id).Nodup →
       p ∈ cm.parameters → jsGet p.id ov = some v →
       Engine.simulate cm tc ov = Except.ok res →
       jsGet p.id res.metadata.parameters = some v) := by
  refine ⟨?_, ?_, ?_⟩
  · intro cm tc ov p v hp hov hoob
    obtain ⟨pid, hpid⟩ := applyOverrides_error_of_oob ov cm.parameters p v hp hov hoob
    exact ⟨pid, by simp [Engine.simulate, hpid]⟩
  · intro cm tc ov hb pid h
    rw [Engine.simulate] at h
    split at h
    · rename_i e he
      cases h
      rw [applyOverrides_ok_of_inbounds ov cm.parameters hb] at he
      exact Except.noConfusion he
    · rename_i params hparams
      split at h
      · rename_i e he
        cases h
        exact runSteps_noBounds cm params tc _ _ pid he
      · exact Except.noConfusion h
  · intro cm tc ov res p v hnd hp hov hsim
    obtain ⟨params, envs, hparams, _, hres⟩ := simulate_ok_shape cm tc ov res hsim
    subst hres
    rw [applyOverrides_ok_eq ov cm.parameters params hparams]
    exact jsGet_params_value ov cm.parameters p v hnd hp hov

/-- The simulation result of the supply-chain example under the
in-bounds override production_capacity = 90. -/
def overrideExpected : Client.SimulationResult :=
  { time := [0, 1, 2],
    stocks := [("inventory", [1000, 1022, 1044])],
    flows := [("production", [72, 72, 72]), ("shipments", [50, 50, 50])],
    auxiliaries := [("demand", [50, 50, 50])],
    metadata := { model_name := "Supply Chain",
                  parameters := [("production_capacity", 90), ("utilization", 4/5)],
                  time_config := inventoryTime } }

/-- Witness for `parameter_bounds_enforced` at the supply-chain example:
overriding production_capacity (bounds [0, 500]) to 1000 fails with a
`ParameterBoundsError`, and the in-bounds override to 90 is reflected in
the returned metadata. -/
theorem parameter_bounds_enforced_witness :
    (∃ pid, Engine.simulate inventoryModel inventoryTime
        [("production_capacity", 1000)] =
      Except.error (Engine.SimulationError.parameterBounds pid)) ∧
    jsGet "production_capacity" overrideExpected.metadata.parameters = some 90 := by
  constructor
  · exact parameter_bounds_enforced.1 inventoryModel inventoryTime
      [("production_capacity", 1000)]
      { id := "production_capacity", value := 100, min := some 0, max := some 500 }
      1000 (by simp [inventoryModel]) (by simp [jsGet])
      (by with_unfolding_all rfl)
  · have h90 : Engine.simulate inventoryModel inventoryTime
        [("production_capacity", 90)] = Except.ok overrideExpected := by
      with_unfolding_all rfl
    exact parameter_bounds_enforced.2.2 inventoryModel inventoryTime
      [("production_capacity", 90)] overrideExpected
      { id := "production_capacity", value := 100, min := some 0, max := some 500 }
      90 (by simp [inventoryModel]) (by simp [inventoryModel]) (by simp [jsGet]) h90

end SysDyn

namespace SysDyn

theorem numSteps_cast (tc : Client.TimeConfig) (hdt : 0 < tc.dt)
    (hlt : tc.start < tc.end_) :
    ((Engine.numSteps tc : ℤ) : ℚ) =
      ((Int.ceil ((tc.end_ - tc.start) / tc.dt) : ℤ) : ℚ) := by
  have hq : 0 < (tc.end_ - tc.start) / tc.dt := div_pos (by linarith) hdt
  have hceil : 0 < Int.ceil ((tc.end_ - tc.start) / tc.dt) := Int.ceil_pos.mpr hq
  rw [Engine.numSteps, Int.toNat_of_nonneg (le_of_lt hceil)]

theorem timeGrid_chain (tc : Client.TimeConfig) (hdt : 0 < tc.dt) :
    List.Chain' (fun a b => a < b) (Engine.timeGrid tc) := by
  rw [Engine.timeGrid, List.chain'_map, List.chain'_range_succ]
  intro m _
  have : ((m : ℚ) + 1) * tc.dt = (m : ℚ) * tc.dt + tc.dt := by ring
  push_cast
  linarith

theorem timeGrid_head (tc : Client.TimeConfig) :
    (Engine.timeGrid tc).head? = some tc.start := by
  rw [Engine.timeGrid, List.range_succ_eq_map]
  simp

theorem timeGrid_getLast (tc : Client.TimeConfig) :
    (Engine.timeGrid tc).getLast? =
      some (tc.start + (Engine.numSteps tc : ℚ) * tc.dt) := by
  rw [Engine.timeGrid, List.range_succ, List.map_append]
  simp

theorem timeGrid_last_ge (tc : Client.TimeConfig) (hdt : 0 < tc.dt)
    (hlt : tc.start < tc.end_) :
    tc.end_ ≤ tc.start + (Engine.numSteps tc : ℚ) * tc.dt := by
  have hle : (tc.end_ - tc.start) / tc.dt ≤ ((Engine.numSteps tc : ℤ) : ℚ) := by
    rw [numSteps_cast tc hdt hlt]
    exact Int.le_ceil _
  have h2 : (tc.end_ - tc.start) / tc.dt * tc.dt ≤
      ((Engine.numSteps tc : ℤ) : ℚ) * tc.dt :=
    mul_le_mul_of_nonneg_right hle (le_of_lt hdt)
  rw [div_mul_cancel₀ _ (ne_of_gt hdt)] at h2
  push_cast at h2
  linarith

theorem timeGrid_last_lt (tc : Client.TimeConfig) (hdt : 0 < tc.dt)
    (hlt : tc.start < tc.end_) :
    tc.start + (Engine.numSteps tc : ℚ) * tc.dt < tc.end_ + tc.dt := by
  have hlt1 : ((Engine.numSteps tc : ℤ) : ℚ) < (tc.end_ - tc.start) / tc.dt + 1 := by
    rw [numSteps_cast tc hdt hlt]
    exact Int.ceil_lt_add_one _
  have h2 : ((Engine.numSteps tc : ℤ) : ℚ) * tc.dt <
      ((tc.end_ - tc.start) / tc.dt + 1) * tc.dt :=
    mul_lt_mul_of_pos_right hlt1 hdt
  rw [add_mul, div_mul_cancel₀ _ (ne_of_gt hdt), one_mul] at h2
  push_cast at h2
  linarith

theorem timeGrid_last_exact (tc : Client.TimeConfig) (hdt : 0 < tc.dt) (k : ℕ)
    (hk : tc.end_ = tc.start + (k : ℚ) * tc.dt) :
    tc.start + (Engine.numSteps tc : ℚ) * tc.dt = tc.end_ := by
  have hq : (tc.end_ - tc.start) / tc.dt = (k : ℚ) := by
    rw [hk]
    field_simp
  have hNk : Engine.numSteps tc = k := by
    rw [Engine.numSteps, hq, Int.ceil_natCast]
    exact Int.toNat_natCast k
  rw [hNk, ← hk]

/-- The sampling contract of §8 for a time axis `ts` over configuration
`tc`: strictly increasing samples, length `⌈(end − start)/dt⌉ + 1`,
first sample at `start`, last sample at `end` when `(end − start)` is an
exact multiple of `dt` and within one `dt` above `end` otherwise. -/
def timeSeriesSpec (tc : Client.TimeConfig) (ts : List ℚ) : Prop :=
  List.Chain' (fun a b => a < b) ts ∧
  ts.length = (Int.ceil ((tc.end_ - tc.start) / tc.dt)).toNat + 1 ∧
  ts.head? = some tc.start ∧
  ∃ last, ts.getLast? = some last ∧ tc.end_ ≤ last ∧ last < tc.end_ + tc.dt ∧
    ∀ k : ℕ, tc.end_ = tc.start + (k : ℚ) * tc.dt → last = tc.end_

/-- Claim C3: for every successful simulation run over a valid time
configuration (dt > 0, end > start) the returned time array is strictly
increasing, has length `⌈(end − start)/dt⌉ + 1`, starts at `start`, and
ends at `end` exactly when `(end − start)` is a multiple of `dt` and
within one `dt` of `end` otherwise. -/
theorem time_axis_monotone_sampling (cm : Engine.CompiledModel)
    (tc : Client.TimeConfig) (ov : List (String × ℚ))
    (res : Client.SimulationResult) (hdt : 0 < tc.dt)
    (hlt : tc.start < tc.end_)
    (h : Engine.simulate cm tc ov = Except.ok res) :
    timeSeriesSpec tc res.time := by
  obtain ⟨params, envs, _, _, hres⟩ := simulate_ok_shape cm tc ov res h
  have htime : res.time = Engine.timeGrid tc := by rw [hres]
  rw [htime]
  refine ⟨timeGrid_chain tc hdt, ?_, timeGrid_head tc,
    tc.start + (Engine.numSteps tc : ℚ) * tc.dt, timeGrid_getLast tc,
    timeGrid_last_ge tc hdt hlt, timeGrid_last_lt tc hdt hlt,
    fun k hk => timeGrid_last_exact tc hdt k hk⟩
  rw [timeGrid_length tc, Engine.numSteps]

/-- Witness for `time_axis_monotone_sampling` at the supply-chain
example configuration start=0, end=2, dt=1. -/
theorem time_axis_monotone_sampling_witness :
    0 < inventoryTime.dt ∧ inventoryTime.start < inventoryTime.end_ ∧
    timeSeriesSpec inventoryTime inventoryExpected.time := by
  refine ⟨by norm_num [inventoryTime], by norm_num [inventoryTime], ?_⟩
  exact time_axis_monotone_sampling inventoryModel inventoryTime [] inventoryExpected
    (by norm_num [inventoryTime]) (by norm_num [inventoryTime])
    (by with_unfolding_all rfl)

end SysDyn
